import Mathlib

/-!
Shallow embedding of the Slopify module's external-service resolution layer
(src/__init__.py, src/lib/spotify_api.py, src/lib/invidious_api.py,
src/lib/types.py) together with theorems checking the design document's
claims against it.

Remote I/O is modelled by passing the upstream responses in as explicit
arguments (oracles): a function that in Python performs an HTTP call here
receives the decoded response (or the per-attempt outcome) as a parameter
and computes exactly what the Python code computes from it.  Python
exceptions are modelled with `Except` over an error type mirroring the
exception classes that the source can raise.  `datetime` instants are
modelled as integers counting seconds, with `datetime.min` at 0 (every
value of `datetime.now()` is at or after `datetime.min`, hence the
`0 ≤ now` hypotheses).
-/

/-- Exception classes raised by the source code: `BadResponseError`
(src/lib/types.py), `aiohttp.ClientError`, `ValueError`, `IndexError`
(from indexing `[0]` into an empty list) and `RuntimeError`.  Distinct
constructors model distinct Python exception types. -/
inductive PyErr where
  | badResponse (msg : String)
  | clientError (msg : String)
  | valueError (msg : String)
  | indexError
  | runtimeError (msg : String)
deriving DecidableEq

/-- The mutable state of `SpotifyAPI` (src/lib/spotify_api.py):
`self._token` and `self._token_expires_at`. -/
structure SpotifyState where
  token : Option String
  tokenExpiresAt : Int
deriving DecidableEq

/-- `SpotifyAPI.__init__`: `self._token = None`,
`self._token_expires_at = datetime.datetime.min` (instant 0 here). -/
def spotifyInit : SpotifyState := { token := none, tokenExpiresAt := 0 }

/-- Decoded response of the credential-exchange POST to the token endpoint:
either `{"error": "invalid_client"}` or `{access_token, expires_in}`. -/
inductive TokenResponse where
  | invalidClient
  | ok (accessToken : String) (expiresIn : Int)

/-- `SpotifyAPI.update_spotify_token`.  `now` is the value of
`datetime.datetime.now()` at the expiry check and `nowAfter` its value
after the exchange round-trip.  The first component counts how many
credential-exchange POSTs were issued (0 or 1); the POST happens whenever
the early return is not taken, even if the response then makes the call
raise `ValueError("Invalid spotify client id or secret")`. -/
def updateSpotifyToken (s : SpotifyState) (now nowAfter : Int) (resp : TokenResponse) :
    Nat × Except PyErr SpotifyState :=
  if s.tokenExpiresAt > now + 60 then
    (0, .ok s)
  else
    (1, match resp with
      | .invalidClient => .error (.valueError "Invalid spotify client id or secret")
      | .ok tok life => .ok { token := some tok, tokenExpiresAt := nowAfter + life })

/-- `SpotifyAPI._auth_header`: raises `ValueError("No spotify token")`
when `self._token is None`. -/
def authHeader (s : SpotifyState) : Except PyErr (List (String × String)) :=
  match s.token with
  | none => .error (.valueError "No spotify token")
  | some t => .ok [("Authorization", "Bearer " ++ t)]

/-- One entry of `track_data["artists"]`. -/
structure SpotifyArtist where
  name : String
deriving DecidableEq

/-- The parts of a track-fetch response body that the resolution layer
reads: `track_data["id"]`, `track_data["name"]`, `track_data["artists"]`. -/
structure SpotifyTrack where
  id : String
  name : String
  artists : List SpotifyArtist
deriving DecidableEq

/-- `SpotifyAPI.fetch_track_data`: refresh the lease, attach the bearer
header, then check the protected response's status (`401` / `!= 200` /
`not ok`, where aiohttp's `ok` is `status < 400`).  `status`, `reason` and
`body` stand for the protected GET's response; the first component carries
the credential-exchange count from `updateSpotifyToken`. -/
def fetchTrackData (s : SpotifyState) (now nowAfter : Int) (resp : TokenResponse)
    (status : Nat) (reason : String) (body : SpotifyTrack) :
    Nat × Except PyErr (SpotifyState × SpotifyTrack) :=
  let (n, r) := updateSpotifyToken s now nowAfter resp
  (n, match r with
    | .error e => .error e
    | .ok s' =>
      match authHeader s' with
      | .error e => .error e
      | .ok _hdr =>
        if status = 401 then
          .error (.badResponse "Invalid spotify token")
        else if status ≠ 200 then
          .error (.badResponse "Could not get track data")
        else if ¬ status < 400 then
          .error (.badResponse (toString status ++ " Could not get track data: " ++ reason))
        else
          .ok (s', body))

/-- The part of a track-search response body that the code reads:
`search["tracks"]["items"]`. -/
structure SpotifySearchResponse where
  tracksItems : List SpotifyTrack
deriving DecidableEq

/-- `SpotifyAPI.search_for`: same lease/header/status structure as
`fetch_track_data`, for the search endpoint. -/
def spotifySearchFor (s : SpotifyState) (now nowAfter : Int) (resp : TokenResponse)
    (status : Nat) (reason : String) (body : SpotifySearchResponse) :
    Nat × Except PyErr (SpotifyState × SpotifySearchResponse) :=
  let (n, r) := updateSpotifyToken s now nowAfter resp
  (n, match r with
    | .error e => .error e
    | .ok s' =>
      match authHeader s' with
      | .error e => .error e
      | .ok _hdr =>
        if status = 401 then
          .error (.badResponse "Invalid spotify token")
        else if status ≠ 200 then
          .error (.badResponse "Could not search for track")
        else if ¬ status < 400 then
          .error (.badResponse (toString status ++ " Could not search for track: " ++ reason))
        else
          .ok (s', body))

/-- States of `SpotifyAPI` reachable from construction through successful
runs of `update_spotify_token` (the only code that assigns `_token` or
`_token_expires_at`; a failing run raises before assigning).  Clock values
satisfy `0 ≤ now` because `datetime.now()` is never before `datetime.min`. -/
inductive SpotifyReachable : SpotifyState → Prop where
  | init : SpotifyReachable spotifyInit
  | step (s : SpotifyState) (now nowAfter : Int) (resp : TokenResponse)
      (s' : SpotifyState) (n : Nat) :
      SpotifyReachable s → 0 ≤ now → 0 ≤ nowAfter →
      updateSpotifyToken s now nowAfter resp = (n, .ok s') → SpotifyReachable s'

/-- The request path built by `InvidiousAPI.get_video`
(src/lib/invidious_api.py line 55): the source string
`"/api/v1/videos/{video_id}"` is not an f-string, so the id is never
substituted and the argument is unused. -/
def getVideoRequestPath (_videoId : String) : String :=
  "/api/v1/videos/{video_id}"

/-- One entry of `video["adaptiveFormats"]`: the fields read by
`InvidiousAPI.get_audio_url`. -/
structure AdaptiveFormat where
  type : String
  bitrate : Int
  itag : String
deriving DecidableEq

/-- The parts of a video-fetch response body that the resolution layer
reads. -/
structure Video where
  videoId : String
  title : String
  adaptiveFormats : List AdaptiveFormat
deriving DecidableEq

/-- Per-attempt outcome of one run of `inner()` inside
`InvidiousAPI.get_video`: the decoded body either carries the video, or an
`"error"` field (raised as `BadResponseError`), or the transport itself
fails (`aiohttp.ClientError`, which `inner` does not raise as
`BadResponseError`). -/
inductive FetchOutcome where
  | success (video : Video)
  | structuredError (msg : String)
  | transportError (msg : String)

/-- What one run of `inner()` returns or raises, given the attempt-indexed
outcome oracle `att`. -/
def innerFetch (att : Nat → FetchOutcome) (i : Nat) : Except PyErr Video :=
  match att i with
  | .success v => .ok v
  | .structuredError m => .error (.badResponse ("Error fetching video: " ++ m))
  | .transportError m => .error (.clientError m)

/-- Whether an exception is caught by `except BadResponseError`. -/
def isBadResponseErr : PyErr → Bool
  | .badResponse _ => true
  | _ => false

/-- `InvidiousAPI.get_video`'s retry wrapper: `try: return await inner()
except BadResponseError: return await inner()`.  The second component
counts how many attempts were made. -/
def getVideoResult (att : Nat → FetchOutcome) : Except PyErr Video × Nat :=
  match innerFetch att 0 with
  | .ok v => (.ok v, 1)
  | .error e =>
    if isBadResponseErr e then (innerFetch att 1, 2) else (.error e, 1)

/-- The probing loop of `InvidiousAPI.find_best_host`: pop candidates in
registry order, run the canary search against each, stop at the first
success (`probe c = true`; `false` stands for `BadResponseError` or
`aiohttp.ClientError`, which the loop catches and skips with a warning).
Returns the selected candidate (if any) and the list of candidates that
were actually probed, in order. -/
def findBestHostLoop (probe : String → Bool) : List String → Option String × List String
  | [] => (none, [])
  | c :: rest =>
    if probe c then (some c, [c])
    else
      let (b, t) := findBestHostLoop probe rest
      (b, c :: t)

/-- `InvidiousAPI.find_best_host` after the registry filter: loop, and
raise `RuntimeError("No invidious instances available")` when no
candidate answered the canary query. -/
def findBestHost (probe : String → Bool) (candidates : List String) : Except PyErr String :=
  match (findBestHostLoop probe candidates).1 with
  | some c => .ok c
  | none => .error (.runtimeError "No invidious instances available")

/-- Python's `str.startswith`, on explicit character lists (second
argument is the prefix pattern). -/
def listStartsWith : List Char → List Char → Bool
  | _, [] => true
  | [], _ :: _ => false
  | c :: cs, p :: ps => c == p && listStartsWith cs ps

/-- Python's `str.startswith` on strings. -/
def strStartsWith (s pre : String) : Bool := listStartsWith s.data pre.data

/-- The generator inside `InvidiousAPI.get_audio_url`:
`(frmt for frmt in video["adaptiveFormats"] if frmt["type"].startswith("audio/"))`. -/
def audioFormats (fmts : List AdaptiveFormat) : List AdaptiveFormat :=
  fmts.filter (fun f => strStartsWith f.type "audio/")

/-- Python's `max(iterable, key=key)`: the first element is the initial
best and a later element replaces it only when its key is strictly
greater, so the first maximal element wins; `none` models the
`ValueError` raised on an empty iterable. -/
def pyMaxBy {α : Type} (key : α → Int) : List α → Option α
  | [] => none
  | x :: xs => some (xs.foldl (fun b y => if key y > key b then y else b) x)

/-- The format-selection step of `InvidiousAPI.get_audio_url`:
`max((frmt ... if frmt["type"].startswith("audio/")), key=lambda frmt:
frmt["bitrate"])`. -/
def getAudioFormat (v : Video) : Except PyErr AdaptiveFormat :=
  match pyMaxBy (fun f => f.bitrate) (audioFormats v.adaptiveFormats) with
  | none => .error (.valueError "max() arg is an empty sequence")
  | some f => .ok f

/-- `SlopifyCog.spotify_to_yt` after the track fetch: build the query
`f"{track_data['name']} {' '.join(artist['name'] for artist in
track_data['artists'])}"`, run the video search (modelled by the oracle
`videoSearch`), and return `search[0]["videoId"]` — indexing an empty
result list raises `IndexError`. -/
def spotifyToYt (track : SpotifyTrack)
    (videoSearch : String → Except PyErr (List Video)) : Except PyErr String :=
  match videoSearch (track.name ++ " " ++
      String.intercalate " " (track.artists.map SpotifyArtist.name)) with
  | .error e => .error e
  | .ok [] => .error .indexError
  | .ok (r :: _) => .ok r.videoId

/-- `SlopifyCog.yt_to_spotify` after the video fetch: use the video title
verbatim as the track search query and return
`search["tracks"]["items"][0]["id"]`. -/
def ytToSpotify (video : Video)
    (trackSearch : String → Except PyErr SpotifySearchResponse) : Except PyErr String :=
  match trackSearch video.title with
  | .error e => .error e
  | .ok resp =>
    match resp.tracksItems with
    | [] => .error .indexError
    | t :: _ => .ok t.id

/-- Python's regex `\s` on the ASCII range (the concrete inputs below are ASCII). -/
def isPySpace (c : Char) : Bool :=
  c == ' ' || c == '\t' || c == '\n' || c == '\r' || c == '\x0b' || c == '\x0c'

/-- The body character class `[^\s<]` of `DISCORD_URL_REGEX` (src/__init__.py lines 16-23). -/
def urlRunChar (c : Char) : Bool := !isPySpace c && c != '<'

/-- The final-character class `[^<.,:;"')\]\s]` of `DISCORD_URL_REGEX` (34 and 39 are the double and single quote). -/
def urlEndChar (c : Char) : Bool :=
  urlRunChar c &&
    !(c == '.' || c == ',' || c == ':' || c == ';' || c == Char.ofNat 34 ||
      c == Char.ofNat 39 || c == ')' || c == ']')

/-- The scheme part `https?://` of the pattern, matched deterministically (consuming the optional `s` exactly when the separator follows it). -/
def matchScheme : List Char → Option (List Char × List Char)
  | 'h' :: 't' :: 't' :: 'p' :: 's' :: ':' :: '/' :: '/' :: rest =>
    some (['h', 't', 't', 'p', 's', ':', '/', '/'], rest)
  | 'h' :: 't' :: 't' :: 'p' :: ':' :: '/' :: '/' :: rest =>
    some (['h', 't', 't', 'p', ':', '/', '/'], rest)
  | _ => none

/-- Backtracking choice of the match end: the engine lets the greedy `[^\s<]+` take the whole run after the scheme and shrinks it until the final character lies in the end class and the lookahead `(?!>)` accepts the character after the match; the body needs at least two characters (one for the `+`, one for the final class). -/
def pickEnd (run after : List Char) : Nat → Option Nat
  | 0 => none
  | 1 => none
  | k + 2 =>
    let lastOk := match run[k + 1]? with
      | some c => urlEndChar c
      | none => false
    let next := match run[k + 2]? with
      | some c => some c
      | none => after.head?
    if lastOk && next != some '>' then some (k + 2) else pickEnd run after (k + 1)

/-- One anchored attempt of `DISCORD_URL_REGEX` at the current position: the lookbehind `(?<!<)` rejects a position directly after `<`; then scheme, greedy run and backtracked end are matched, returning the capture and the remaining input. -/
def matchAttempt (prev : Option Char) (cs : List Char) : Option (List Char × List Char) :=
  if prev == some '<' then none
  else
    match matchScheme cs with
    | none => none
    | some (sch, rest) =>
      let run := rest.takeWhile urlRunChar
      let after := rest.drop run.length
      match pickEnd run after run.length with
      | none => none
      | some k => some (sch ++ run.take k, run.drop k ++ after)

/-- The left-to-right scan of `re.findall`: try a match at every position, emit non-overlapping matches and resume right after each one (the fuel argument bounds the recursion by the input length). -/
def scanAux : Nat → Option Char → List Char → List (List Char)
  | 0, _, _ => []
  | _ + 1, _, [] => []
  | fuel + 1, prev, c :: rest =>
    match matchAttempt prev (c :: rest) with
    | some (m, rest2) => m :: scanAux fuel m.getLast? rest2
    | none => scanAux fuel (some c) rest

/-- `DISCORD_URL_REGEX.findall(message.content)` (src/__init__.py): all matches of the single capture group, left to right. -/
def discordUrlFindall (s : String) : List String :=
  (scanAux (s.data.length + 1) none s.data).map String.mk

/-- Python's `str.endswith`. -/
def strEndsWith (s suffix : String) : Bool :=
  listStartsWith s.data.reverse suffix.data.reverse

/-- Python's `str.split(sep)` without a split limit, on character lists. -/
def splitAll (sep : Char) : List Char → List (List Char)
  | [] => [[]]
  | c :: cs =>
    if c == sep then [] :: splitAll sep cs
    else
      match splitAll sep cs with
      | [] => [[c]]
      | h :: t => (c :: h) :: t

/-- Python's `str.split(sep, maxsplit)` on character lists: at most `maxsplit` splits, the remainder staying in one piece. -/
def splitLimited (sep : Char) : Nat → List Char → List (List Char)
  | _, [] => [[]]
  | 0, cs => [cs]
  | m + 1, c :: cs =>
    if c == sep then [] :: splitLimited sep m cs
    else
      match splitLimited sep (m + 1) cs with
      | [] => [[c]]
      | h :: t => (c :: h) :: t

/-- Python's `str.split(sep, maxsplit)` on strings. -/
def pySplit (s : String) (sep : Char) (maxsplit : Nat) : List String :=
  (splitLimited sep maxsplit s.data).map String.mk

/-- The parts of a `yarl.URL` that the message handlers read. -/
structure Url where
  host : Option String
  path : String
  query : List (String × String)
deriving DecidableEq

/-- Query-string parsing into key-value pairs, as `yarl` exposes them. -/
def parseQuery (cs : List Char) : List (String × String) :=
  (splitAll '&' cs).filterMap (fun part =>
    if part.isEmpty then none
    else
      let k := part.takeWhile (fun c => c != '=')
      match part.drop k.length with
      | '=' :: v => some (String.mk k, String.mk v)
      | _ => some (String.mk k, ""))

/-- `yarl.URL(...)` parsing restricted to what the handlers read: host (an empty authority becomes `None`), path (defaulting to `/`) and query pairs. -/
def parseUrl (s : String) : Url :=
  let cs := s.data
  let schemePart := cs.takeWhile (fun c => c != ':')
  match cs.drop schemePart.length with
  | ':' :: '/' :: '/' :: r =>
    let auth := r.takeWhile (fun c => c != '/' && c != '?' && c != '#')
    let r2 := r.drop auth.length
    let pathChars := r2.takeWhile (fun c => c != '?' && c != '#')
    let r3 := r2.drop pathChars.length
    let queryChars := match r3 with
      | '?' :: q => q.takeWhile (fun c => c != '#')
      | _ => []
    { host := if auth.isEmpty then none else some (String.mk auth),
      path := if pathChars.isEmpty then "/" else String.mk pathChars,
      query := parseQuery queryChars }
  | _ => { host := none, path := s, query := [] }

/-- `url.query.get(key)`: the first value bound to the key, if any. -/
def queryGet (u : Url) (k : String) : Option String :=
  (u.query.find? (fun p => p.1 == k)).map (fun p => p.2)

/-- How a message URL was classified by the cog. -/
inductive LinkClass where
  | track (id : String)
  | video (id : String)
deriving DecidableEq

/-- The per-URL classification of `SlopifyCog.on_message` (src/__init__.py lines 276-287): skip a URL without a host or whose host does not end in `spotify.com`; when the path starts with `/track/`, the id handed to `handle_track` is `url.path.split("/", 4)[2]`. -/
def onMessageClassify (u : Url) : Option String :=
  match u.host with
  | none => none
  | some h =>
    if strEndsWith h "spotify.com" then
      if strStartsWith u.path "/track/" then (pySplit u.path '/' 4)[2]? else none
    else none

/-- The video-id extraction of `SlopifyCog.embed_track_callback`: `url.query.get("v") or url.path.split("/", 2)[-1]` (an absent or empty query value falls back to the last path piece). -/
def embedVideoId (u : Url) : String :=
  match queryGet u "v" with
  | some v => if v == "" then (pySplit u.path '/' 2).getLastD "" else v
  | none => (pySplit u.path '/' 2).getLastD ""

/-- The per-URL classification of `SlopifyCog.embed_track_callback` (src/__init__.py lines 255-274): a host ending in `spotify.com` is treated as a track link with id `url.path.split("/", 4)[2]` with no path-prefix check; a host ending in `youtube.com` or `youtu.be` is a video link. -/
def embedClassify (u : Url) : Option LinkClass :=
  match u.host with
  | none => none
  | some h =>
    if strEndsWith h "spotify.com" then
      ((pySplit u.path '/' 4)[2]?).map LinkClass.track
    else if strEndsWith h "youtube.com" || strEndsWith h "youtu.be" then
      some (LinkClass.video (embedVideoId u))
    else none

/-- Modelled from the spec's words: the third path segment of a URL path, splitting the path on `/` (the leading slash contributes an empty first segment, so `/track/ABC123` has third segment `ABC123`, matching the spec's example). -/
def specThirdSegment (path : String) : String :=
  ((splitAll '/' path.data).map String.mk).getD 2 ""

/-- `List.find?` on a cons whose head satisfies the predicate. -/
theorem find_cons_pos {α : Type} (p : α → Bool) (a : α) (l : List α) (h : p a = true) :
    (a :: l).find? p = some a := List.find?_cons_of_pos l h

/-- `List.find?` on a cons whose head fails the predicate. -/
theorem find_cons_neg {α : Type} (p : α → Bool) (a : α) (l : List α) (h : p a = false) :
    (a :: l).find? p = l.find? p := List.find?_cons_of_neg l (by simp [h])

/-- `List.find?` depends only on the predicate's values on the list. -/
theorem find_congr_on {α : Type} (p q : α → Bool) :
    ∀ l : List α, (∀ x ∈ l, p x = q x) → l.find? p = l.find? q := by
  intro l
  induction l with
  | nil => intro _; rfl
  | cons a t ih =>
    intro h
    have ha : p a = q a := h a (List.mem_cons_self a t)
    have ht := ih fun x hx => h x (List.mem_cons_of_mem a hx)
    cases hq : q a with
    | true =>
      rw [find_cons_pos p a t (ha.trans hq), find_cons_pos q a t hq]
    | false =>
      rw [find_cons_neg p a t (ha.trans hq), find_cons_neg q a t hq, ht]

/-- The Python `max` fold keeps its seed when no element strictly beats it. -/
theorem foldl_max_of_all_le {α : Type} (key : α → Int) :
    ∀ (l : List α) (b : α), (∀ y ∈ l, key y ≤ key b) →
      l.foldl (fun acc y => if key y > key acc then y else acc) b = b := by
  intro l
  induction l with
  | nil => intro b _; rfl
  | cons a t ih =>
    intro b h
    have ha : ¬ key a > key b := not_lt.mpr (h a (List.mem_cons_self a t))
    simp only [List.foldl_cons, if_neg ha]
    exact ih b fun y hy => h y (List.mem_cons_of_mem a hy)

/-- The Python `max(..., key=...)` fold over `b :: l` returns the first element whose key dominates every element's key: the first maximal element in iteration order (later ties do not replace it). -/
theorem pyMax_first_max {α : Type} (key : α → Int) :
    ∀ (l : List α) (b : α),
      (b :: l).find? (fun x => (b :: l).all (fun y => decide (key y ≤ key x))) =
        some (l.foldl (fun acc y => if key y > key acc then y else acc) b) := by
  intro l
  induction l with
  | nil =>
    intro b
    rw [find_cons_pos (fun x => ([b] : List α).all fun y => decide (key y ≤ key x)) b []
      (by simp)]
    rfl
  | cons y ys ih =>
    intro b
    by_cases hyb : key b < key y
    · have hstep : (y :: ys).foldl (fun acc z => if key z > key acc then z else acc) b =
          ys.foldl (fun acc z => if key z > key acc then z else acc) y := by
        simp only [List.foldl_cons, if_pos hyb]
      rw [hstep]
      have hpb : ((b :: y :: ys).all fun z => decide (key z ≤ key b)) = false :=
        List.all_eq_false.mpr ⟨y, by simp, by simp [not_le.mpr hyb]⟩
      rw [find_cons_neg (fun x => (b :: y :: ys).all fun z => decide (key z ≤ key x)) b
        (y :: ys) hpb]
      have hcong : (y :: ys).find?
            (fun x => (b :: y :: ys).all fun z => decide (key z ≤ key x)) =
          (y :: ys).find? (fun x => (y :: ys).all fun z => decide (key z ≤ key x)) := by
        apply find_congr_on
        intro x _
        have hexp : ((b :: y :: ys).all fun z => decide (key z ≤ key x)) =
            (decide (key b ≤ key x) && ((y :: ys).all fun z => decide (key z ≤ key x))) :=
          List.all_cons ..
        rw [hexp]
        cases hsmall : ((y :: ys).all fun z => decide (key z ≤ key x)) with
        | true =>
          have hyx : key y ≤ key x := by
            simpa using List.all_eq_true.mp hsmall y (List.mem_cons_self y ys)
          simp [le_trans (le_of_lt hyb) hyx]
        | false => simp
      rw [hcong, ih y]
    · have hyb' : key y ≤ key b := not_lt.mp hyb
      have hstep : (y :: ys).foldl (fun acc z => if key z > key acc then z else acc) b =
          ys.foldl (fun acc z => if key z > key acc then z else acc) b := by
        simp only [List.foldl_cons, if_neg hyb]
      rw [hstep]
      by_cases hmax : ∀ z ∈ ys, key z ≤ key b
      · have hpb : ((b :: y :: ys).all fun z => decide (key z ≤ key b)) = true := by
          rw [List.all_eq_true]
          intro z hz
          rcases List.mem_cons.mp hz with rfl | hz2
          · simp
          · rcases List.mem_cons.mp hz2 with rfl | hz3
            · simpa using hyb'
            · simpa using hmax z hz3
        rw [find_cons_pos (fun x => (b :: y :: ys).all fun z => decide (key z ≤ key x)) b
          (y :: ys) hpb]
        rw [foldl_max_of_all_le key ys b hmax]
      · push_neg at hmax
        obtain ⟨z, hz, hbz⟩ := hmax
        have hpb : ((b :: y :: ys).all fun w => decide (key w ≤ key b)) = false :=
          List.all_eq_false.mpr ⟨z, by simp [hz], by simp [not_le.mpr hbz]⟩
        have hpy : ((b :: y :: ys).all fun w => decide (key w ≤ key y)) = false :=
          List.all_eq_false.mpr
            ⟨z, by simp [hz], by simp [not_le.mpr (lt_of_le_of_lt hyb' hbz)]⟩
        rw [find_cons_neg (fun x => (b :: y :: ys).all fun w => decide (key w ≤ key x)) b
          (y :: ys) hpb]
        rw [find_cons_neg (fun x => (b :: y :: ys).all fun w => decide (key w ≤ key x)) y
          ys hpy]
        have ihb := ih b
        have hmb : ((b :: ys).all fun w => decide (key w ≤ key b)) = false :=
          List.all_eq_false.mpr ⟨z, by simp [hz], by simp [not_le.mpr hbz]⟩
        rw [find_cons_neg (fun x => (b :: ys).all fun w => decide (key w ≤ key x)) b
          ys hmb] at ihb
        rw [← ihb]
        apply find_congr_on
        intro x _
        have hbig : ((b :: y :: ys).all fun w => decide (key w ≤ key x)) =
            (decide (key b ≤ key x) &&
              (decide (key y ≤ key x) && (ys.all fun w => decide (key w ≤ key x)))) := by
          rw [List.all_cons, List.all_cons]
        have hmed : ((b :: ys).all fun w => decide (key w ≤ key x)) =
            (decide (key b ≤ key x) && (ys.all fun w => decide (key w ≤ key x))) :=
          List.all_cons ..
        rw [hbig, hmed]
        by_cases hbx : key b ≤ key x
        · simp [hbx, le_trans hyb' hbx]
        · simp [hbx]

/-- `pyMax_first_max` specialized to the bitrate key used by
`get_audio_url`. -/
theorem pyMax_first_max_bitrate (l : List AdaptiveFormat) (b : AdaptiveFormat) :
    (b :: l).find? (fun f => (b :: l).all (fun g => decide (g.bitrate ≤ f.bitrate))) =
      some (l.foldl (fun acc y => if y.bitrate > acc.bitrate then y else acc) b) :=
  pyMax_first_max (fun f => f.bitrate) l b

/-- Invariant of reachable `SpotifyAPI` states: the token is absent only
in the initial state, whose expiry is `datetime.min` (instant 0). -/
theorem spotifyReachable_token_none (s : SpotifyState) (hs : SpotifyReachable s) :
    s.token = none → s.tokenExpiresAt = 0 := by
  induction hs with
  | init => intro; rfl
  | step s now nowAfter resp s' n _ hnow hna hupd ih =>
    intro htok
    unfold updateSpotifyToken at hupd
    split at hupd
    · obtain ⟨rfl, hs'⟩ := Prod.mk.injEq .. ▸ hupd
      cases hs'
      exact ih htok
    · cases resp with
      | invalidClient => simp at hupd
      | ok tok life =>
        simp only [Prod.mk.injEq] at hupd
        obtain ⟨-, hs'⟩ := hupd
        cases hs'
        simp at htok

/-- A list passing `listStartsWith` decomposes as the prefix plus a tail. -/
theorem listStartsWith_append (p : List Char) :
    ∀ s : List Char, listStartsWith s p = true → ∃ t, s = p ++ t := by
  induction p with
  | nil => intro s _; exact ⟨s, rfl⟩
  | cons a ps ih =>
    intro s h
    cases s with
    | nil => simp [listStartsWith] at h
    | cons c cs =>
      simp only [listStartsWith, Bool.and_eq_true, beq_iff_eq] at h
      obtain ⟨rfl, h2⟩ := h
      obtain ⟨t, rfl⟩ := ih cs h2
      exact ⟨t, rfl⟩

/-- `splitLimited` always returns at least one piece. -/
theorem splitLimited_ne_nil (sep : Char) (m : Nat) (cs : List Char) :
    splitLimited sep m cs ≠ [] := by
  cases cs with
  | nil => simp [splitLimited]
  | cons c cs' =>
    cases m with
    | zero => simp [splitLimited]
    | succ m' =>
      simp only [splitLimited]
      by_cases hc : c == sep
      · simp [hc]
      · simp only [hc, Bool.false_eq_true, if_false]
        rcases h : splitLimited sep (m' + 1) cs' with _ | ⟨h1, t1⟩ <;> simp

/-- `splitAll` always returns at least one piece. -/
theorem splitAll_ne_nil (sep : Char) (cs : List Char) : splitAll sep cs ≠ [] := by
  cases cs with
  | nil => simp [splitAll]
  | cons c cs' =>
    simp only [splitAll]
    by_cases hc : c == sep
    · simp [hc]
    · simp only [hc, Bool.false_eq_true, if_false]
      rcases h : splitAll sep cs' with _ | ⟨h1, t1⟩ <;> simp

/-- The first piece of a limited split is the run before the first separator. -/
theorem splitLimited_head (sep : Char) (m : Nat) :
    ∀ cs : List Char,
      (splitLimited sep (m + 1) cs).head? = some (cs.takeWhile (fun c => c != sep)) := by
  intro cs
  induction cs with
  | nil => simp [splitLimited]
  | cons c cs' ih =>
    simp only [splitLimited]
    by_cases hc : c == sep
    · have hc' : (c != sep) = false := by simp [bne]; exact eq_of_beq hc
      simp [hc, List.takeWhile_cons, hc']
    · have hc' : (c != sep) = true := by simp [bne, hc]
      rcases h : splitLimited sep (m + 1) cs' with _ | ⟨h1, t1⟩
      · exact absurd h (splitLimited_ne_nil sep (m + 1) cs')
      · rw [h] at ih
        simp only [List.head?] at ih
        have hh1 : h1 = cs'.takeWhile (fun c => c != sep) := by
          injection ih
        simp [hc, List.takeWhile_cons, hc', hh1]

/-- The first piece of an unlimited split is the run before the first separator. -/
theorem splitAll_head (sep : Char) :
    ∀ cs : List Char,
      (splitAll sep cs).head? = some (cs.takeWhile (fun c => c != sep)) := by
  intro cs
  induction cs with
  | nil => simp [splitAll]
  | cons c cs' ih =>
    simp only [splitAll]
    by_cases hc : c == sep
    · have hc' : (c != sep) = false := by simp [bne]; exact eq_of_beq hc
      simp [hc, List.takeWhile_cons, hc']
    · have hc' : (c != sep) = true := by simp [bne, hc]
      rcases h : splitAll sep cs' with _ | ⟨h1, t1⟩
      · exact absurd h (splitAll_ne_nil sep cs')
      · rw [h] at ih
        simp only [List.head?] at ih
        have hh1 : h1 = cs'.takeWhile (fun c => c != sep) := by
          injection ih
        simp [hc, List.takeWhile_cons, hc', hh1]

/-- On a path starting with `/track/`, the id the code extracts — `path.split("/", 4)[2]` — exists and equals the spec's third path segment. -/
theorem track_path_extract (path : String)
    (hstart : strStartsWith path "/track/" = true) :
    (pySplit path '/' 4)[2]? = some (specThirdSegment path) := by
  obtain ⟨t, hdata⟩ := listStartsWith_append ("/track/".data) path.data hstart
  have h4 : splitLimited '/' 4 path.data =
      [] :: (['t', 'r', 'a', 'c', 'k'] : List Char) :: splitLimited '/' 2 t := by
    rw [hdata]; rfl
  have hall : splitAll '/' path.data =
      [] :: (['t', 'r', 'a', 'c', 'k'] : List Char) :: splitAll '/' t := by
    rw [hdata]; rfl
  rcases hL : splitLimited '/' 2 t with _ | ⟨a, L⟩
  · exact absurd hL (splitLimited_ne_nil '/' 2 t)
  · rcases hA : splitAll '/' t with _ | ⟨a2, L2⟩
    · exact absurd hA (splitAll_ne_nil '/' t)
    · have ha : a = t.takeWhile (fun c => c != '/') := by
        have := splitLimited_head '/' 1 t
        rw [hL] at this
        simpa using this
      have ha2 : a2 = t.takeWhile (fun c => c != '/') := by
        have := splitAll_head '/' t
        rw [hA] at this
        simpa using this
      simp [pySplit, specThirdSegment, h4, hall, hL, hA, ha, ha2]

/-- C1: the claim says `getVideo(id)` requests the video-fetch endpoint
path-parameterized by `id`, so distinct ids produce distinct request
paths.  The code violates this: the path string lacks the `f` prefix, so
two distinct ids produce the identical literal request path
`/api/v1/videos/{video_id}`.  The surrounding code (the debug log line and
the spec) shows parameterization was the intent, so this is a bug in the
code, not in the claim. -/
theorem getVideo_path_ignores_id :
    getVideoRequestPath "XYZ987" = getVideoRequestPath "dQw4w9WgXcQ" ∧
    ("XYZ987" : String) ≠ "dQw4w9WgXcQ" ∧
    getVideoRequestPath "XYZ987" = "/api/v1/videos/{video_id}" :=
  ⟨rfl, by decide, rfl⟩

/-- C2: if `expiresAt` is more than 1 minute after `now`, a call to
`fetch_track_data` or `search_for` performs no credential exchange and
leaves the token state unchanged; if `expiresAt` is in the past or within
1 minute of `now`, the call performs exactly one credential exchange —
setting `expiresAt` to the clock value after the exchange plus the
upstream-reported lifetime when the exchange succeeds — before the
protected request is issued (`updateSpotifyToken` runs first in both
definitions). -/
theorem token_refresh_policy (s : SpotifyState) (now nowAfter : Int) (resp : TokenResponse)
    (status : Nat) (reason : String) (body : SpotifyTrack) (sbody : SpotifySearchResponse) :
    (s.tokenExpiresAt > now + 60 →
      updateSpotifyToken s now nowAfter resp = (0, .ok s) ∧
      (fetchTrackData s now nowAfter resp status reason body).1 = 0 ∧
      (spotifySearchFor s now nowAfter resp status reason sbody).1 = 0 ∧
      (∀ s2 tr, (fetchTrackData s now nowAfter resp status reason body).2 = .ok (s2, tr) →
        s2 = s) ∧
      (∀ s2 sr, (spotifySearchFor s now nowAfter resp status reason sbody).2 = .ok (s2, sr) →
        s2 = s)) ∧
    (s.tokenExpiresAt ≤ now + 60 →
      (fetchTrackData s now nowAfter resp status reason body).1 = 1 ∧
      (spotifySearchFor s now nowAfter resp status reason sbody).1 = 1 ∧
      (∀ tok life, resp = .ok tok life →
        updateSpotifyToken s now nowAfter resp =
          (1, .ok { token := some tok, tokenExpiresAt := nowAfter + life }))) := by
  constructor
  · intro h
    have hupd : updateSpotifyToken s now nowAfter resp = (0, .ok s) := by
      simp [updateSpotifyToken, h]
    refine ⟨hupd, ?_, ?_, ?_, ?_⟩
    · simp [fetchTrackData, hupd]
    · simp [spotifySearchFor, hupd]
    · intro s2 tr
      simp only [fetchTrackData, hupd]
      intro hres
      split at hres
      · exact absurd hres (by simp)
      · split_ifs at hres
        simp_all
    · intro s2 sr
      simp only [spotifySearchFor, hupd]
      intro hres
      split at hres
      · exact absurd hres (by simp)
      · split_ifs at hres
        simp_all
  · intro h
    have hnot : ¬ s.tokenExpiresAt > now + 60 := not_lt.mpr h
    refine ⟨?_, ?_, ?_⟩
    · simp [fetchTrackData, updateSpotifyToken, hnot]
    · simp [spotifySearchFor, updateSpotifyToken, hnot]
    · intro tok life hresp
      simp [updateSpotifyToken, hnot, hresp]

/-- Witness for `token_refresh_policy`: on a fresh client
(`expiresAt = 0`) at `now = 100`, a fetch performs exactly one exchange,
and the exchange stores `expiresAt = 100 + 3600`; on a lease expiring at
1000 the same call performs none. -/
theorem token_refresh_policy_witness :
    (fetchTrackData spotifyInit 100 100 (.ok "tok" 3600) 200 "OK"
      { id := "i", name := "n", artists := [] }).1 = 1 ∧
    updateSpotifyToken spotifyInit 100 100 (.ok "tok" 3600) =
      (1, .ok { token := some "tok", tokenExpiresAt := 3700 }) ∧
    (fetchTrackData { token := some "t", tokenExpiresAt := 1000 } 100 100 (.ok "tok" 3600)
      200 "OK" { id := "i", name := "n", artists := [] }).1 = 0 := by
  refine ⟨?_, ?_, ?_⟩
  · exact ((token_refresh_policy spotifyInit 100 100 (.ok "tok" 3600) 200 "OK"
      { id := "i", name := "n", artists := [] }
      { tracksItems := [] }).2 (by decide)).1
  · exact (((token_refresh_policy spotifyInit 100 100 (.ok "tok" 3600) 200 "OK"
      { id := "i", name := "n", artists := [] }
      { tracksItems := [] }).2 (by decide)).2.2 "tok" 3600 rfl)
  · exact (((token_refresh_policy { token := some "t", tokenExpiresAt := 1000 } 100 100
      (.ok "tok" 3600) 200 "OK" { id := "i", name := "n", artists := [] }
      { tracksItems := [] }).1 (by decide)).2.1)

/-- C3: `get_video` retries at most once and only on the structured
(`BadResponseError`) error from the catalog body: with outcomes
[structured error, success] it returns the success after two attempts;
with [structured error, structured error] it propagates the second error
after exactly two attempts, never three; a first-attempt success or
transport error ends after one attempt with no retry. -/
theorem getVideo_retry_policy (att : Nat → FetchOutcome) :
    (getVideoResult att).2 ≤ 2 ∧
    (∀ m v, att 0 = .structuredError m → att 1 = .success v →
      getVideoResult att = (.ok v, 2)) ∧
    (∀ m m2, att 0 = .structuredError m → att 1 = .structuredError m2 →
      getVideoResult att = (.error (.badResponse ("Error fetching video: " ++ m2)), 2)) ∧
    (∀ m, att 0 = .transportError m →
      getVideoResult att = (.error (.clientError m), 1)) ∧
    (∀ v, att 0 = .success v → getVideoResult att = (.ok v, 1)) := by
  refine ⟨?_, ?_, ?_, ?_, ?_⟩
  · unfold getVideoResult innerFetch
    cases att 0 <;> simp [isBadResponseErr]
  · intro m v h0 h1
    simp [getVideoResult, innerFetch, h0, h1, isBadResponseErr]
  · intro m m2 h0 h1
    simp [getVideoResult, innerFetch, h0, h1, isBadResponseErr]
  · intro m h0
    simp [getVideoResult, innerFetch, h0, isBadResponseErr]
  · intro v h0
    simp [getVideoResult, innerFetch, h0]

/-- Witness for `getVideo_retry_policy`: a structured mismatch error on
the first attempt followed by a success is returned after two attempts. -/
theorem getVideo_retry_policy_witness :
    getVideoResult
        (fun i => if i = 0 then .structuredError "mismatch"
          else .success { videoId := "v", title := "t", adaptiveFormats := [] }) =
      (.ok { videoId := "v", title := "t", adaptiveFormats := [] }, 2) :=
  (getVideo_retry_policy _).2.1 "mismatch"
    { videoId := "v", title := "t", adaptiveFormats := [] } rfl rfl

/-- C4: for every ordered candidate list and fixed per-candidate probe
outcomes, selection returns the first candidate whose probe succeeds, and
fails with the no-viable-instance `RuntimeError` when every probe fails
(including the empty list, where `cs.find? probe = none`); the probed
candidates are exactly the failing prefix followed by the selected one, so
no candidate is probed twice in the pass. -/
theorem find_best_host_first_success (probe : String → Bool) (cs : List String) :
    findBestHost probe cs =
      (match cs.find? probe with
        | some c => .ok c
        | none => .error (.runtimeError "No invidious instances available")) ∧
    (findBestHostLoop probe cs).2 =
      cs.takeWhile (fun c => !probe c) ++
        (match cs.find? probe with
          | some c => [c]
          | none => []) := by
  have hloop : ∀ l : List String,
      (findBestHostLoop probe l).1 = l.find? probe ∧
      (findBestHostLoop probe l).2 =
        l.takeWhile (fun c => !probe c) ++
          (match l.find? probe with
            | some c => [c]
            | none => []) := by
    intro l
    induction l with
    | nil => exact ⟨rfl, rfl⟩
    | cons c rest ih =>
      by_cases hc : probe c
      · simp [findBestHostLoop, hc, List.find?, List.takeWhile]
      · have h1 : findBestHostLoop probe (c :: rest) =
            ((findBestHostLoop probe rest).1, c :: (findBestHostLoop probe rest).2) := by
          simp [findBestHostLoop, hc]
        have hfind : (c :: rest).find? probe = rest.find? probe := by
          simp [List.find?, hc]
        have htake : (c :: rest).takeWhile (fun x => !probe x) =
            c :: rest.takeWhile (fun x => !probe x) := by
          simp [List.takeWhile, hc]
        rw [h1, hfind, htake]
        exact ⟨ih.1, by simp [ih.2]⟩
  exact ⟨by unfold findBestHost; rw [(hloop cs).1], (hloop cs).2⟩

/-- C5 counterexample: `embed_track_callback` classifies `https://open.spotify.com/album/XYZ` as a track-catalog link with id `XYZ` although the URL's path does not begin with the track-resource prefix, refuting the claim's "only if" direction at that call site. -/
theorem embed_track_ignores_path_counterexample :
    embedClassify (parseUrl "https://open.spotify.com/album/XYZ") =
      some (LinkClass.track "XYZ") ∧
    strStartsWith (parseUrl "https://open.spotify.com/album/XYZ").path "/track/" = false :=
  ⟨by decide, by decide⟩

/-- C5 (amended): in the passive `on_message` listener a URL is classified as a track-catalog link if and only if its host ends with `spotify.com` and its path begins with `/track/`, and in that case the extracted id is the third path segment; the `embed_track_callback` context-menu handler, however, classifies by host suffix alone, extracting `url.path.split("/", 4)[2]` without any path-prefix check. -/
theorem track_link_classification_amended :
    (∀ (u : Url) (i : String),
      onMessageClassify u = some i ↔
        ∃ h, u.host = some h ∧ strEndsWith h "spotify.com" = true ∧
          strStartsWith u.path "/track/" = true ∧ i = specThirdSegment u.path) ∧
    (∀ (u : Url) (h : String), u.host = some h → strEndsWith h "spotify.com" = true →
      embedClassify u = ((pySplit u.path '/' 4)[2]?).map LinkClass.track) := by
  constructor
  · intro u i
    constructor
    · intro hcl
      rcases hh : u.host with _ | hst
      · simp [onMessageClassify, hh] at hcl
      · simp only [onMessageClassify, hh] at hcl
        by_cases he : strEndsWith hst "spotify.com" = true
        · by_cases hs : strStartsWith u.path "/track/" = true
          · rw [if_pos he, if_pos hs, track_path_extract u.path hs] at hcl
            exact ⟨hst, rfl, he, hs, (Option.some.inj hcl).symm⟩
          · rw [if_pos he, if_neg hs] at hcl
            simp at hcl
        · rw [if_neg he] at hcl
          simp at hcl
    · rintro ⟨hst, hh, he, hs, rfl⟩
      simp only [onMessageClassify, hh, if_pos he, if_pos hs]
      exact track_path_extract u.path hs
  · intro u hst hh he
    simp only [embedClassify, hh, if_pos he]

/-- Witness for `track_link_classification_amended`: the listener classifies the concrete track URL with id `ABC123`, and the context-menu handler follows its host-only rule on the same URL. -/
theorem track_link_classification_amended_witness :
    onMessageClassify (parseUrl "https://open.spotify.com/track/ABC123?si=xyz") =
      some "ABC123" ∧
    embedClassify (parseUrl "https://open.spotify.com/track/ABC123?si=xyz") =
      ((pySplit (parseUrl "https://open.spotify.com/track/ABC123?si=xyz").path
        '/' 4)[2]?).map LinkClass.track := by
  constructor
  · exact (track_link_classification_amended.1
        (parseUrl "https://open.spotify.com/track/ABC123?si=xyz") "ABC123").mpr
      ⟨"open.spotify.com", by decide, by decide, by decide, by decide⟩
  · exact track_link_classification_amended.2
      (parseUrl "https://open.spotify.com/track/ABC123?si=xyz") "open.spotify.com"
      (by decide) (by decide)

/-- C6: when either cross-resolution search returns zero results, the
resolver surfaces `IndexError` (the spec's `NoMatchFound`), an exception
type distinct from the upstream-failure `BadResponseError` and the
transport-failure `aiohttp.ClientError`, so the caller can tell "not
found" apart from "service error". -/
theorem no_match_surfaced_distinctly :
    (∀ (track : SpotifyTrack) (videoSearch : String → Except PyErr (List Video)),
      videoSearch (track.name ++ " " ++
          String.intercalate " " (track.artists.map SpotifyArtist.name)) = .ok [] →
      spotifyToYt track videoSearch = .error .indexError) ∧
    (∀ (video : Video) (trackSearch : String → Except PyErr SpotifySearchResponse)
        (resp : SpotifySearchResponse),
      trackSearch video.title = .ok resp → resp.tracksItems = [] →
      ytToSpotify video trackSearch = .error .indexError) ∧
    (∀ m : String, PyErr.indexError ≠ PyErr.badResponse m ∧
      PyErr.indexError ≠ PyErr.clientError m) := by
  refine ⟨?_, ?_, ?_⟩
  · intro track videoSearch h
    simp [spotifyToYt, h]
  · intro video trackSearch resp h hitems
    simp [ytToSpotify, h, hitems]
  · intro m
    exact ⟨by simp, by simp⟩

/-- Witness for `no_match_surfaced_distinctly`: a concrete track whose
video search comes back empty resolves to `IndexError`. -/
theorem no_match_surfaced_distinctly_witness :
    spotifyToYt { id := "i", name := "Song", artists := [{ name := "Artist" }] }
      (fun _ => .ok []) = .error .indexError :=
  no_match_surfaced_distinctly.1
    { id := "i", name := "Song", artists := [{ name := "Artist" }] }
    (fun _ => .ok []) rfl

/-- C7: `get_audio_url` selects, among the adaptive formats whose media
type begins with `audio/`, the first format attaining the numerically
greatest bitrate (`find?` returns the first element that every element's
bitrate is below-or-equal to); on the spec's example list it selects the
256-bitrate audio entry; and it fails for every video with no audio
format. -/
theorem audio_format_selection :
    (∀ v : Video, getAudioFormat v =
      (match (audioFormats v.adaptiveFormats).find?
          (fun f => (audioFormats v.adaptiveFormats).all
            (fun g => decide (g.bitrate ≤ f.bitrate))) with
        | some f => .ok f
        | none => .error (.valueError "max() arg is an empty sequence"))) ∧
    getAudioFormat { videoId := "v", title := "t", adaptiveFormats :=
        [{ type := "audio/webm", bitrate := 128, itag := "249" },
         { type := "audio/mp4", bitrate := 256, itag := "140" },
         { type := "video/mp4", bitrate := 1000, itag := "137" }] } =
      .ok { type := "audio/mp4", bitrate := 256, itag := "140" } ∧
    (∀ v : Video, audioFormats v.adaptiveFormats = [] →
      getAudioFormat v = .error (.valueError "max() arg is an empty sequence")) := by
  refine ⟨?_, by rfl, ?_⟩
  · intro v
    rcases haf : audioFormats v.adaptiveFormats with _ | ⟨x, xs⟩
    · simp [getAudioFormat, haf, pyMaxBy]
    · simp only [getAudioFormat, haf, pyMaxBy]
      rw [pyMax_first_max_bitrate xs x]
  · intro v h
    simp [getAudioFormat, h, pyMaxBy]

/-- Witness for `audio_format_selection`: a video whose only declared
format is video-typed has no audio format, so selection fails. -/
theorem audio_format_selection_witness :
    getAudioFormat
        { videoId := "v", title := "t",
          adaptiveFormats := [{ type := "video/mp4", bitrate := 1000, itag := "137" }] } =
      .error (.valueError "max() arg is an empty sequence") :=
  audio_format_selection.2.2
    { videoId := "v", title := "t",
      adaptiveFormats := [{ type := "video/mp4", bitrate := 1000, itag := "137" }] }
    (by decide)

/-- C8: `spotify_to_yt` queries the video search with the track title
followed by the artist names in original order (title, a space, then the
space-joined artist names) and returns the first result's video id
unchanged; `yt_to_spotify` queries the track search with the video title
verbatim and returns the first result's track id unchanged — no
re-ranking, filtering or confidence threshold. -/
theorem cross_resolution_first_hit :
    (∀ (track : SpotifyTrack) (videoSearch : String → Except PyErr (List Video))
        (r : Video) (rest : List Video),
      videoSearch (track.name ++ " " ++
          String.intercalate " " (track.artists.map SpotifyArtist.name)) =
        .ok (r :: rest) →
      spotifyToYt track videoSearch = .ok r.videoId) ∧
    (∀ (video : Video) (trackSearch : String → Except PyErr SpotifySearchResponse)
        (resp : SpotifySearchResponse) (t : SpotifyTrack) (rest : List SpotifyTrack),
      trackSearch video.title = .ok resp → resp.tracksItems = t :: rest →
      ytToSpotify video trackSearch = .ok t.id) := by
  constructor
  · intro track videoSearch r rest h
    simp [spotifyToYt, h]
  · intro video trackSearch resp t rest h hitems
    simp [ytToSpotify, h, hitems]

/-- Witness for `cross_resolution_first_hit`: the search oracle answers
the exact query "Song Artist One Artist Two" and the resolver returns the
first hit's id. -/
theorem cross_resolution_first_hit_witness :
    spotifyToYt
      { id := "i", name := "Song",
        artists := [{ name := "Artist One" }, { name := "Artist Two" }] }
      (fun q => if q = "Song Artist One Artist Two" then
          .ok [{ videoId := "vid1", title := "T", adaptiveFormats := [] }]
        else .error (.badResponse "unexpected query")) = .ok "vid1" :=
  cross_resolution_first_hit.1
    { id := "i", name := "Song",
      artists := [{ name := "Artist One" }, { name := "Artist Two" }] }
    (fun q => if q = "Song Artist One Artist Two" then
        .ok [{ videoId := "vid1", title := "T", adaptiveFormats := [] }]
      else .error (.badResponse "unexpected query"))
    { videoId := "vid1", title := "T", adaptiveFormats := [] } [] (by rfl)

/-- C9 counterexample: the URL `https://a.com/https://b.com`, immediately preceded by `<` and immediately followed by `>`, still has a part of it matched (a match starts at the embedded `https://`), refuting "no part of that URL is matched at all". -/
theorem wrapped_url_embedded_scheme_counterexample :
    discordUrlFindall "<https://a.com/https://b.com>" = ["https://b.com>"] ∧
    discordUrlFindall "<https://a.com/https://b.com>" ≠ [] :=
  ⟨by decide, by decide⟩

/-- C9 (amended): the extractor matches the track example URL yielding track id `ABC123`, and both video example URLs (short-form and query-parameter) yielding video id `XYZ987` (the code's catalog domains `spotify.com`, `youtu.be`, `youtube.com` instantiate the spec's placeholder domains); each example URL wrapped in angle brackets is not matched at all; and no match ever starts at a position immediately preceded by `<`.  The original claim's stronger clause — no part of any wrapped URL is matched — fails when the URL embeds a second scheme; see the counterexample. -/
theorem link_extractor_examples :
    discordUrlFindall "https://open.spotify.com/track/ABC123?si=xyz" =
      ["https://open.spotify.com/track/ABC123?si=xyz"] ∧
    onMessageClassify (parseUrl "https://open.spotify.com/track/ABC123?si=xyz") =
      some "ABC123" ∧
    discordUrlFindall "https://youtu.be/XYZ987" = ["https://youtu.be/XYZ987"] ∧
    embedClassify (parseUrl "https://youtu.be/XYZ987") = some (.video "XYZ987") ∧
    discordUrlFindall "https://www.youtube.com/watch?v=XYZ987" =
      ["https://www.youtube.com/watch?v=XYZ987"] ∧
    embedClassify (parseUrl "https://www.youtube.com/watch?v=XYZ987") =
      some (.video "XYZ987") ∧
    discordUrlFindall "<https://open.spotify.com/track/ABC123?si=xyz>" = [] ∧
    discordUrlFindall "<https://youtu.be/XYZ987>" = [] ∧
    discordUrlFindall "<https://www.youtube.com/watch?v=XYZ987>" = [] ∧
    (∀ cs : List Char, matchAttempt (some '<') cs = none) := by
  refine ⟨by decide, by decide, by decide, by decide, by decide, by decide, by decide,
    by decide, by decide, ?_⟩
  intro cs
  simp [matchAttempt]

/-- C10: whenever `update_spotify_token` returns without raising, the
stored token is non-`None` (the client starts with expiry
`datetime.min`, so the first call always refreshes, and the early return
is only taken with a strictly positive expiry, which by the invariant
implies a stored token); hence the `ValueError("No spotify token")`
branch of `_auth_header` is unreachable from `fetch_track_data` and
`search_for`. -/
theorem spotify_token_never_missing (s : SpotifyState) (now nowAfter : Int)
    (resp : TokenResponse) (hs : SpotifyReachable s) (hnow : 0 ≤ now) :
    (∀ s' n, updateSpotifyToken s now nowAfter resp = (n, .ok s') → s'.token ≠ none) ∧
    (∀ status reason body,
      (fetchTrackData s now nowAfter resp status reason body).2 ≠
        .error (.valueError "No spotify token")) ∧
    (∀ status reason body,
      (spotifySearchFor s now nowAfter resp status reason body).2 ≠
        .error (.valueError "No spotify token")) ∧
    (∀ s2 n2, updateSpotifyToken spotifyInit now nowAfter resp = (n2, .ok s2) → n2 = 1) := by
  have hmain : ∀ s' n, updateSpotifyToken s now nowAfter resp = (n, .ok s') →
      s'.token ≠ none := by
    intro s' n hupd
    unfold updateSpotifyToken at hupd
    split at hupd
    case isTrue hgt =>
      obtain ⟨-, hs'⟩ := Prod.mk.injEq .. ▸ hupd
      cases hs'
      intro htok
      have h0 := spotifyReachable_token_none s hs htok
      rw [h0] at hgt
      omega
    case isFalse =>
      cases resp with
      | invalidClient => simp at hupd
      | ok tok life =>
        simp only [Prod.mk.injEq] at hupd
        obtain ⟨-, hs'⟩ := hupd
        cases hs'
        simp
  refine ⟨hmain, ?_, ?_, ?_⟩
  · intro status reason body
    simp only [fetchTrackData]
    intro hres
    rcases hupd : updateSpotifyToken s now nowAfter resp with ⟨n, r⟩
    rw [hupd] at hres
    cases r with
    | error e =>
      simp only at hres
      have he : e = PyErr.valueError "No spotify token" := by simpa using hres
      subst he
      unfold updateSpotifyToken at hupd
      split at hupd
      · simp at hupd
      · cases resp <;> simp_all
    | ok s' =>
      have htok := hmain s' n hupd
      simp only at hres
      rcases htokv : s'.token with _ | t
      · exact htok htokv
      · rw [show authHeader s' = .ok [("Authorization", "Bearer " ++ t)] from by
          simp [authHeader, htokv]] at hres
        split_ifs at hres <;> simp_all
  · intro status reason body
    simp only [spotifySearchFor]
    intro hres
    rcases hupd : updateSpotifyToken s now nowAfter resp with ⟨n, r⟩
    rw [hupd] at hres
    cases r with
    | error e =>
      simp only at hres
      have he : e = PyErr.valueError "No spotify token" := by simpa using hres
      subst he
      unfold updateSpotifyToken at hupd
      split at hupd
      · simp at hupd
      · cases resp <;> simp_all
    | ok s' =>
      have htok := hmain s' n hupd
      simp only at hres
      rcases htokv : s'.token with _ | t
      · exact htok htokv
      · rw [show authHeader s' = .ok [("Authorization", "Bearer " ++ t)] from by
          simp [authHeader, htokv]] at hres
        split_ifs at hres <;> simp_all
  · intro s2 n2 hupd
    unfold updateSpotifyToken at hupd
    split at hupd
    case isTrue hgt => simp [spotifyInit] at hgt; omega
    case isFalse => exact (Prod.mk.injEq .. ▸ hupd).1.symm

/-- Witness for `spotify_token_never_missing`: applied to the freshly
constructed client at `now = 100` with a successful exchange response. -/
theorem spotify_token_never_missing_witness :
    (fetchTrackData spotifyInit 100 100 (.ok "tok" 3600) 200 "OK"
        { id := "i", name := "n", artists := [] }).2 ≠
      .error (.valueError "No spotify token") :=
  (spotify_token_never_missing spotifyInit 100 100 (.ok "tok" 3600)
    SpotifyReachable.init (by decide)).2.1 200 "OK"
    { id := "i", name := "n", artists := [] }
